import Mathlib

/-!
Verification development for the credential-rotating reverse proxy
(`copilot_more`): a shallow embedding of `token.py` (the `TokenManager`
credential pool) and `server.py` (the forwarding pipeline), with theorems
checking the natural-language specification against the code.

Modelling conventions:
* timestamps (`time.time()`) are `Nat` seconds; within one operation the
  clock is a single `now` argument, matching the code reading the clock
  once per operation;
* the refresh-token strings in the pool are assumed pairwise distinct
  (the spec requires identity by string value with duplicates collapsed),
  so the Python `dict` keyed by token string is modelled as a list of
  statuses parallel to the token list;
* network effects (the token-exchange endpoint, the upstream
  chat-completions endpoint, `json.loads`) are oracles passed as
  function arguments; Python exceptions are `Except`/explicit error
  constructors; the unbounded recursion in `refresh_token` is made
  total with an explicit fuel argument whose exhaustion (`diverge`)
  models non-termination.
-/

/-- Per-credential mutable status record (`token_statuses` entry in
`TokenManager.load_tokens`). -/
structure TokenStatus where
  last_error : Option String
  rate_limited_until : Nat
  consecutive_failures : Nat
deriving Repr, DecidableEq

/-- Initial status created by `load_tokens`. -/
def TokenStatus.init : TokenStatus :=
  { last_error := none, rate_limited_until := 0, consecutive_failures := 0 }

/-- Short-lived upstream access token (`token_data` dict: `token`,
`expires_at`). -/
structure AccessToken where
  token : String
  expires_at : Nat
deriving Repr, DecidableEq

/-- The mutable state of `TokenManager`: refresh-token pool, parallel
status list, rotation index and the (at most one) cached access token. -/
structure TMState where
  tokens : List String
  statuses : List TokenStatus
  current_index : Nat
  cached_token : Option AccessToken
deriving Repr, DecidableEq

/-- The scanning loop of `TokenManager.get_next_available_token`:
starting at `cur`, check up to `fuel` positions (the code runs it with
`fuel = len(tokens)`), advancing `current_index := (current_index+1) %
len(tokens)` past rate-limited entries.  `Sum.inl j` = usable credential
found at index `j` (the code's early `return`); `Sum.inr cur'` = scan
exhausted with `current_index` left at `cur'`. -/
def scanLoop (now n : Nat) (statuses : List TokenStatus) :
    Nat → Nat → Nat ⊕ Nat
  | 0, cur => Sum.inr cur
  | fuel + 1, cur =>
    if (statuses.getD cur TokenStatus.init).rate_limited_until ≤ now then
      Sum.inl cur
    else
      scanLoop now n statuses fuel ((cur + 1) % n)

/-- Index of the first status with minimal `rate_limited_until`
(`min(self.token_statuses.items(), key=...)` followed by
`self.tokens.index(...)`: Python `min` keeps the first minimum in dict
insertion order, which equals list order for distinct tokens). -/
def argminRLU : List TokenStatus → Nat
  | [] => 0
  | st :: rest =>
    match rest with
    | [] => 0
    | _ :: _ =>
      let j := argminRLU rest
      if st.rate_limited_until ≤ (rest.getD j TokenStatus.init).rate_limited_until
      then 0 else j + 1

/-- Embedding of `TokenManager.get_next_available_token`: returns `(token, index)` and
the updated state.  On success the lapsed rate limit (if any) is healed
(`rate_limited_until := 0`, `consecutive_failures := 0`); if every
credential is rate-limited the soonest-available one is returned without
touching any status and without pointing `current_index` at it. -/
def get_next_available_token (s : TMState) (now : Nat) :
    (String × Nat) × TMState :=
  let n := s.tokens.length
  match scanLoop now n s.statuses n s.current_index with
  | Sum.inl j =>
    let st := s.statuses.getD j TokenStatus.init
    let st' :=
      if 0 < st.rate_limited_until then
        { st with rate_limited_until := 0, consecutive_failures := 0 }
      else st
    ((s.tokens.getD j "", j),
     { s with statuses := s.statuses.set j st', current_index := j })
  | Sum.inr cur' =>
    let j := argminRLU s.statuses
    ((s.tokens.getD j "", j), { s with current_index := cur' })

/-- Embedding of `TokenManager.mark_token_rate_limited`: bump `consecutive_failures`,
set a flat 60-second window from `now`, record the error message.  The
dict update `token_statuses[token]` is modelled as an update at the
token's first index (`List.indexOf`), which for a pool of distinct
tokens is the unique index; an absent token leaves the state unchanged
(Python would raise `KeyError`, a case no caller exercises). -/
def mark_token_rate_limited (s : TMState) (tok : String) (now : Nat) :
    TMState :=
  let i := s.tokens.indexOf tok
  let st := s.statuses.getD i TokenStatus.init
  { s with
    statuses := s.statuses.set i
      { st with
        consecutive_failures := st.consecutive_failures + 1
        rate_limited_until := now + 60
        last_error := some "Rate limit exceeded" } }

/-- The JSON report returned by `TokenManager.cycle_token`. -/
structure RotationReport where
  previous_index : Nat
  current_index : Nat
  total_tokens : Nat
  rate_limited_until : Nat
  consecutive_failures : Nat
  is_rate_limited : Bool
deriving Repr, DecidableEq

/-- Embedding of `TokenManager.cycle_token`: advance `current_index` with wraparound,
clear the cached access token, and report the previous/new index, pool
size and the new current credential's status snapshot. -/
def cycle_token (s : TMState) (now : Nat) : RotationReport × TMState :=
  let old := s.current_index
  let ni := (s.current_index + 1) % s.tokens.length
  let st := s.statuses.getD ni TokenStatus.init
  ({ previous_index := old
     current_index := ni
     total_tokens := s.tokens.length
     rate_limited_until := st.rate_limited_until
     consecutive_failures := st.consecutive_failures
     is_rate_limited := decide (now < st.rate_limited_until) },
   { s with current_index := ni, cached_token := none })

/-- One call to the GitHub token-exchange endpoint
(`GET /copilot_internal/v2/token`), as an oracle keyed by the refresh
token sent in the `Authorization` header. -/
inductive ExchangeOutcome where
  | success (tokenData : AccessToken)
  | rateLimited
  | failure (status : Nat) (body : String)
  | netError (msg : String)
deriving Repr, DecidableEq

/-- Outcome of `TokenManager.refresh_token`: a token, a raised exception
(`ValueError` or a re-raised network error), or fuel exhaustion, which
models the unbounded recursion not terminating. -/
inductive RefreshResult where
  | ok (t : AccessToken)
  | err (msg : String)
  | diverge
deriving Repr, DecidableEq

/-- Embedding of `TokenManager.refresh_token`.  Control flow of the source: select a
credential with `get_next_available_token`; on 200 return the token
data; on 429 penalize and recurse; on any other status raise
`ValueError`, which the function's own `except` clause catches; the
`except` clause penalizes the credential again and recurses when some
credential is currently usable, otherwise re-raises.  An exception
raised by the recursive call in the 429 branch is likewise caught by
this frame's `except` clause.  Each recursive call consumes one unit of
fuel; `diverge` propagates. -/
def refresh_token (exchange : String → ExchangeOutcome) (now : Nat) :
    Nat → TMState → RefreshResult × TMState
  | 0, s => (RefreshResult.diverge, s)
  | fuel + 1, s =>
    let r0 := get_next_available_token s now
    let tok := r0.1.1
    let s1 := r0.2
    match exchange tok with
    | ExchangeOutcome.success td => (RefreshResult.ok td, s1)
    | ExchangeOutcome.rateLimited =>
      let s2 := mark_token_rate_limited s1 tok now
      match refresh_token exchange now fuel s2 with
      | (RefreshResult.err m, s3) =>
        let s4 := mark_token_rate_limited s3 tok now
        if s4.statuses.any (fun st => st.rate_limited_until ≤ now) then
          refresh_token exchange now fuel s4
        else (RefreshResult.err m, s4)
      | r => r
    | ExchangeOutcome.failure st body =>
      let m := "Failed to refresh token: " ++ toString st ++ " " ++ body
      let s2 := mark_token_rate_limited s1 tok now
      if s2.statuses.any (fun st => st.rate_limited_until ≤ now) then
        refresh_token exchange now fuel s2
      else (RefreshResult.err m, s2)
    | ExchangeOutcome.netError m =>
      let s2 := mark_token_rate_limited s1 tok now
      if s2.statuses.any (fun st => st.rate_limited_until ≤ now) then
        refresh_token exchange now fuel s2
      else (RefreshResult.err m, s2)

/-- Embedding of `TokenManager.get_cached_copilot_token`: return the cached access
token while `expires_at > now + 300`, otherwise refresh and cache
(`cache_copilot_token` stores the new token; on a raised refresh error
nothing is cached).  The middle component reports whether a refresh was
performed (an observable upstream call). -/
def get_cached_copilot_token (exchange : String → ExchangeOutcome)
    (now fuel : Nat) (s : TMState) : RefreshResult × Bool × TMState :=
  match s.cached_token with
  | some t =>
    if now + 300 < t.expires_at then (RefreshResult.ok t, false, s)
    else
      match refresh_token exchange now fuel s with
      | (RefreshResult.ok nt, s') =>
        (RefreshResult.ok nt, true, { s' with cached_token := some nt })
      | (r, s') => (r, true, s')
  | none =>
    match refresh_token exchange now fuel s with
    | (RefreshResult.ok nt, s') =>
      (RefreshResult.ok nt, true, { s' with cached_token := some nt })
    | (r, s') => (r, true, s')

/-- Constant `MAX_RETRIES` in `server.py`. -/
def MAX_RETRIES : Nat := 3

/-- Constant `MAX_TOKENS` in `server.py`. -/
def MAX_TOKENS : Nat := 10240

/-- One upstream HTTP call in `make_api_request`, as an oracle keyed by
the attempt number (how many upstream calls were already made in this
request) and the bearer token attached to the call. -/
inductive UpstreamResp where
  | http (status : Nat) (body : String)
  | exc (msg : String)
deriving Repr, DecidableEq

/-- Outcome of `make_api_request`: the returned `(status, text)` tuple,
a propagated exception, the `HTTPException(429, "All tokens are rate
limited...")` raised when the `while` loop exits (dead code in the
source: no path reaches it), or fuel exhaustion inside
`refresh_token`. -/
inductive ApiResult where
  | ok (status : Nat) (body : String)
  | raised (msg : String)
  | poolExhausted
  | diverge
deriving Repr, DecidableEq

/-- The `while retries < MAX_RETRIES` loop of `make_api_request`.
`remaining = MAX_RETRIES - retries`; `attempt` counts upstream calls
made (feeding the oracle); `trace` records the bearer token attached to
each upstream call, in order.  On 429 the code penalizes
`tokens[current_index]` (the credential the rotation index points at,
not necessarily the one backing the bearer token) and, if the budget
allows, continues the loop without touching the cached access token. -/
def make_api_request_loop (upstream : Nat → String → UpstreamResp)
    (exchange : String → ExchangeOutcome) (now fuel : Nat) :
    Nat → Nat → TMState → List String → ApiResult × TMState × List String
  | 0, _, s, tr => (ApiResult.poolExhausted, s, tr)
  | r + 1, attempt, s, tr =>
    match get_cached_copilot_token exchange now fuel s with
    | (RefreshResult.diverge, _, s1) => (ApiResult.diverge, s1, tr)
    | (RefreshResult.err m, _, s1) =>
      if r = 0 then (ApiResult.raised m, s1, tr)
      else make_api_request_loop upstream exchange now fuel r attempt s1 tr
    | (RefreshResult.ok t, _, s1) =>
      let tr' := tr ++ [t.token]
      match upstream attempt t.token with
      | UpstreamResp.http 429 body =>
        let cur := s1.tokens.getD s1.current_index ""
        let s2 := mark_token_rate_limited s1 cur now
        if r = 0 then (ApiResult.ok 429 body, s2, tr')
        else make_api_request_loop upstream exchange now fuel r (attempt + 1) s2 tr'
      | UpstreamResp.http st body => (ApiResult.ok st body, s1, tr')
      | UpstreamResp.exc m =>
        if r = 0 then (ApiResult.raised m, s1, tr')
        else make_api_request_loop upstream exchange now fuel r (attempt + 1) s1 tr'

/-- Embedding of `make_api_request` in `server.py`: run the retry loop with the full
`MAX_RETRIES` budget. -/
def make_api_request (upstream : Nat → String → UpstreamResp)
    (exchange : String → ExchangeOutcome) (now fuel : Nat) (s : TMState) :
    ApiResult × TMState × List String :=
  make_api_request_loop upstream exchange now fuel MAX_RETRIES 0 s []

/-- JSON values, the shape of `json.loads`/`json.dumps` data in
`server.py`. -/
inductive JVal where
  | null
  | jbool (b : Bool)
  | jnum (n : Int)
  | jstr (s : String)
  | jarr (xs : List JVal)
  | jobj (fields : List (String × JVal))

/-- Key lookup in a JSON object (`d[k]` / `d.get(k)`); objects produced
by `json.loads` have unique keys, so first-match lookup is exact. -/
def fget (fs : List (String × JVal)) (k : String) : Option JVal :=
  (fs.find? (fun p => p.1 == k)).map Prod.snd

/-- Lookup `jget` on a whole value: `none` on non-objects. -/
def jget (v : JVal) (k : String) : Option JVal :=
  match v with
  | JVal.jobj fs => fget fs k
  | _ => none

/-- Python truthiness of a JSON value (`if not choices: ...`). -/
def jtruthy : JVal → Bool
  | JVal.null => false
  | JVal.jbool b => b
  | JVal.jnum n => n != 0
  | JVal.jstr s => !s.isEmpty
  | JVal.jarr xs => !xs.isEmpty
  | JVal.jobj fs => !fs.isEmpty

/-- Merge `{**data, k: v}` when `k` is already a key of `data`: replace the
value in place, keeping insertion order. -/
def setKey (fs : List (String × JVal)) (k : String) (v : JVal) :
    List (String × JVal) :=
  fs.map (fun p => if p.1 == k then (p.1, v) else p)

/-- Lower-case hex digit. -/
def hexDigit (n : Nat) : Char :=
  if n < 10 then Char.ofNat (48 + n) else Char.ofNat (97 + (n - 10))

/-- Four lower-case hex digits, as in Python's `\uXXXX` escapes. -/
def hex4 (n : Nat) : String :=
  String.mk [hexDigit (n / 4096 % 16), hexDigit (n / 256 % 16),
             hexDigit (n / 16 % 16), hexDigit (n % 16)]

/-- One character under `json.dumps` default escaping
(`ensure_ascii=True`): short escapes for the usual controls, `\uXXXX`
for other controls and all non-ASCII, surrogate pairs beyond the BMP. -/
def escapeChar (c : Char) : String :=
  if c = '"' then "\\\""
  else if c = '\\' then "\\\\"
  else if c = '\n' then "\\n"
  else if c = '\r' then "\\r"
  else if c = '\t' then "\\t"
  else if c.toNat = 8 then "\\b"
  else if c.toNat = 12 then "\\f"
  else if c.toNat < 32 then "\\u" ++ hex4 c.toNat
  else if c.toNat < 127 then String.singleton c
  else if c.toNat < 65536 then "\\u" ++ hex4 c.toNat
  else
    let v := c.toNat - 65536
    "\\u" ++ hex4 (55296 + v / 1024) ++ "\\u" ++ hex4 (56320 + v % 1024)

/-- A JSON string literal under `json.dumps` escaping. -/
def escapeString (s : String) : String :=
  "\"" ++ String.join (s.data.map escapeChar) ++ "\""

/-- Serializer `json.dumps` with its default separators. -/
def dumps : JVal → String
  | JVal.null => "null"
  | JVal.jbool true => "true"
  | JVal.jbool false => "false"
  | JVal.jnum n => toString n
  | JVal.jstr s => escapeString s
  | JVal.jarr xs =>
    "[" ++ String.intercalate ", " (xs.attach.map (fun x => dumps x.1)) ++ "]"
  | JVal.jobj fs =>
    "\x7b" ++
      String.intercalate ", "
        (fs.attach.map (fun p => escapeString p.1.1 ++ ": " ++ dumps p.1.2)) ++
      "\x7d"
termination_by v => sizeOf v
decreasing_by
  · have h := List.sizeOf_lt_of_mem x.2
    simp only [JVal.jarr.sizeOf_spec]
    omega
  · have h := List.sizeOf_lt_of_mem p.2
    obtain ⟨⟨a, b⟩, hp⟩ := p
    simp only [Prod.mk.sizeOf_spec] at h
    simp only [JVal.jobj.sizeOf_spec]
    omega

/-- Reshaping of one choice in `convert_o1_response`: a choice without a
`"message"` key is skipped (`ok none`); otherwise the code builds
`{"index": choice["index"], "delta": {"content":
choice["message"]["content"]}}` and appends `"finish_reason"` when
present.  Missing `"index"`/`"content"` keys raise (`KeyError`), as does
subscripting a non-object; errors carry modelled messages, not Python's
exact text. -/
def convertChoice (choice : JVal) : Except String (Option JVal) :=
  match choice with
  | JVal.jobj cf =>
    match fget cf "message" with
    | none => Except.ok none
    | some msg =>
      match fget cf "index" with
      | none => Except.error "KeyError: index"
      | some idxv =>
        match msg with
        | JVal.jobj mf =>
          match fget mf "content" with
          | none => Except.error "KeyError: content"
          | some c =>
            let base := [("index", idxv),
                         ("delta", JVal.jobj [("content", c)])]
            match fget cf "finish_reason" with
            | some fr => Except.ok (some (JVal.jobj (base ++ [("finish_reason", fr)])))
            | none => Except.ok (some (JVal.jobj base))
        | _ => Except.error "TypeError: message is not subscriptable"
  | _ => Except.error "TypeError: choice is not a dict"

/-- The `for choice in choices` loop of `convert_o1_response`:
sequential, stopping at the first exception. -/
def convertChoices : List JVal → Except String (List JVal)
  | [] => Except.ok []
  | c :: cs =>
    match convertChoice c with
    | Except.error e => Except.error e
    | Except.ok r =>
      match convertChoices cs with
      | Except.error e => Except.error e
      | Except.ok rest =>
        match r with
        | some v => Except.ok (v :: rest)
        | none => Except.ok rest

/-- Embedding of `convert_o1_response` in `server.py`: pass non-`choices` data
through; an empty or falsy `choices` value is returned unchanged (`if
not choices`); otherwise rebuild the body with the reshaped choice
list.  A truthy non-array `choices` is modelled as a `TypeError` (in
Python, iterating a truthy string or dict would walk its
characters/keys — a shape outside every claim and caller). -/
def convert_o1_response (data : JVal) : Except String JVal :=
  match data with
  | JVal.jobj fields =>
    match fget fields "choices" with
    | none => Except.ok data
    | some (JVal.jarr []) => Except.ok data
    | some (JVal.jarr choices) =>
      match convertChoices choices with
      | Except.error e => Except.error e
      | Except.ok conv =>
        Except.ok (JVal.jobj (setKey fields "choices" (JVal.jarr conv)))
    | some other =>
      if jtruthy other then Except.error "TypeError: choices is not iterable"
      else Except.ok data
  | _ => Except.error "TypeError: argument is not a dict"

/-- The SSE event object emitted per choice by `convert_to_sse_events`:
`{"id": …, "created": …, "model": …, "choices": [choice]}` with
`data.get` defaults. -/
def mkSseEvent (fields : List (String × JVal)) (choice : JVal) : JVal :=
  JVal.jobj [("id", (fget fields "id").getD (JVal.jstr "")),
             ("created", (fget fields "created").getD (JVal.jnum 0)),
             ("model", (fget fields "model").getD (JVal.jstr "")),
             ("choices", JVal.jarr [choice])]

/-- Embedding of `convert_to_sse_events` in `server.py`: one `data: {…}\n\n` frame
per choice, then the terminal `data: [DONE]\n\n` frame.  As above, a
non-array `choices` value is modelled as a `TypeError`. -/
def convert_to_sse_events (data : JVal) : Except String (List String) :=
  match data with
  | JVal.jobj fields =>
    match fget fields "choices" with
    | none => Except.ok ["data: [DONE]\n\n"]
    | some (JVal.jarr choices) =>
      Except.ok
        ((choices.map (fun c => "data: " ++ dumps (mkSseEvent fields c) ++ "\n\n")) ++
         ["data: [DONE]\n\n"])
    | some _ => Except.error "TypeError: choices is not iterable"
  | _ => Except.error "TypeError: argument is not a dict"

/-- Python `str.startswith`, over the character list so that concrete
runs reduce in the kernel. -/
def strStartsWith (s p : String) : Bool :=
  p.data.isPrefixOf s.data

/-- The in-stream error frame `json.dumps({"error": msg})` yielded by
`stream_response`. -/
def errFrame (msg : String) : String :=
  dumps (JVal.jobj [("error", JVal.jstr msg)])

/-- Detail string of the `HTTPException(429, ...)` at the end of
`make_api_request`. -/
def poolExhaustedDetail : String :=
  "All tokens are rate limited. Please try again later."

/-- The `stream_response` generator of `proxy_chat_completions`, given
the outcome of `make_api_request` (`json.loads` is the `jsonLoads`
oracle).  Its frames, in order: a non-200 status yields one
`{"error": "API error: …"}` frame; a 200 for an `o1*` model with
`stream=true` yields the converted SSE events, or one `{"error": …}`
frame if parsing/conversion raises (the conversion runs to completion
before the first event is yielded, so a failure produces no partial
events); any other 200 yields the upstream body verbatim as one chunk;
an exception propagating out of `make_api_request` is caught by the
outer `except` and yields one `{"error": …}` frame.  `diverge` (fuel
exhaustion inside the token refresh) models a producer that never
finishes: no frame list is produced, represented by `[]`. -/
def stream_response (jsonLoads : String → Except String JVal)
    (model : String) (is_streaming : Bool) (r : ApiResult) : List String :=
  match r with
  | ApiResult.raised m => [errFrame m]
  | ApiResult.poolExhausted => [errFrame poolExhaustedDetail]
  | ApiResult.diverge => []
  | ApiResult.ok status text =>
    if status ≠ 200 then [errFrame ("API error: " ++ text)]
    else if strStartsWith model "o1" && is_streaming then
      match jsonLoads text with
      | Except.error m => [errFrame m]
      | Except.ok d =>
        match convert_o1_response d with
        | Except.error m => [errFrame m]
        | Except.ok c =>
          match convert_to_sse_events c with
          | Except.error m => [errFrame m]
          | Except.ok evs => evs
    else [text]

/-- A chat message as handled by `preprocess_request_body`; the fields
the code touches are `role` and `content` (`content` may be any JSON
value: strings are sanitized, arrays expanded, anything else passed
through). -/
structure Message where
  role : String
  content : JVal

/-- The caller's request body fields read by `preprocess_request_body`
(`model`, `messages`, `max_tokens`; other keys pass through
unchanged). -/
structure ReqBody where
  model : Option String
  messages : Option (List Message)
  max_tokens : Option Nat

/-- One entry of a content array: the code requires `type == "text"`
(anything else, including a missing or non-string `type`, raises
`HTTPException(400, …)`), sanitizes a string `text` value, and passes a
non-string `text` value through. -/
def processContentItem (sanitize : String → String) (role : String)
    (item : JVal) : Except String Message :=
  match item with
  | JVal.jobj ifs =>
    match fget ifs "type" with
    | some (JVal.jstr t) =>
      if t = "text" then
        match fget ifs "text" with
        | some (JVal.jstr txt) =>
          Except.ok { role := role, content := JVal.jstr (sanitize txt) }
        | some v => Except.ok { role := role, content := v }
        | none => Except.error "KeyError: text"
      else Except.error "400: Only text type is supported in content array"
    | _ => Except.error "400: Only text type is supported in content array"
  | _ => Except.error "TypeError: content item is not a dict"

/-- Per-message step of `preprocess_request_body`: an array content
expands into one message per item; a string content is sanitized; any
other content is forwarded unchanged. -/
def processMessage (sanitize : String → String) (m : Message) :
    Except String (List Message) :=
  match m.content with
  | JVal.jarr items => items.mapM (processContentItem sanitize m.role)
  | JVal.jstr s => Except.ok [{ role := m.role, content := JVal.jstr (sanitize s) }]
  | other => Except.ok [{ role := m.role, content := other }]

/-- Embedding of `preprocess_request_body` in `server.py`: a missing or empty message
list returns the body unchanged; otherwise messages are processed, and
when the model name is truthy and starts with `"o1"` every `"system"`
role is rewritten to `"user"`; `max_tokens` defaults to `MAX_TOKENS`.
The text sanitizer (`StringSanitizer.sanitize`, an external
collaborator per the spec) is the `sanitize` oracle. -/
def preprocess_request_body (sanitize : String → String) (b : ReqBody) :
    Except String ReqBody :=
  match b.messages with
  | none => Except.ok b
  | some [] => Except.ok b
  | some msgs =>
    match msgs.mapM (processMessage sanitize) with
    | Except.error e => Except.error e
    | Except.ok pms =>
      let pm := pms.flatten
      let model := b.model.getD ""
      let pm2 :=
        if !model.data.isEmpty && strStartsWith model "o1" then
          pm.map (fun m => if m.role = "system" then { m with role := "user" } else m)
        else pm
      Except.ok { b with messages := some pm2,
                         max_tokens := some (b.max_tokens.getD MAX_TOKENS) }

/-- Frame specification of `mark_token_rate_limited`: only the given
credential's status record changes (`consecutive_failures + 1`,
`rate_limited_until = now + 60`, `last_error` set); the token list,
`current_index`, every other credential's status, and the cached access
token are unchanged. -/
def MarkFrameSpec (s : TMState) (tok : String) (now : Nat) : Prop :=
  (mark_token_rate_limited s tok now).tokens = s.tokens ∧
  (mark_token_rate_limited s tok now).current_index = s.current_index ∧
  (mark_token_rate_limited s tok now).cached_token = s.cached_token ∧
  ((mark_token_rate_limited s tok now).statuses.getD (s.tokens.indexOf tok)
      TokenStatus.init).consecutive_failures =
    (s.statuses.getD (s.tokens.indexOf tok)
      TokenStatus.init).consecutive_failures + 1 ∧
  ((mark_token_rate_limited s tok now).statuses.getD (s.tokens.indexOf tok)
      TokenStatus.init).rate_limited_until = now + 60 ∧
  ((mark_token_rate_limited s tok now).statuses.getD (s.tokens.indexOf tok)
      TokenStatus.init).last_error = some "Rate limit exceeded" ∧
  (∀ j, j ≠ s.tokens.indexOf tok →
    (mark_token_rate_limited s tok now).statuses.getD j TokenStatus.init =
      s.statuses.getD j TokenStatus.init)

/-- Specification of one `cycle_token` call at clock `now`, followed by a
`get_cached_copilot_token` call at clock `now2`: index advanced with
wraparound, cache invalidated, statuses and tokens untouched, the
rotation report populated from the new current credential, and the next
`get_cached_copilot_token` performing a refresh (its middle component
reports whether the refresh path ran). -/
def CycleSpec (s : TMState) (now now2 fuel : Nat)
    (exchange : String → ExchangeOutcome) : Prop :=
  (cycle_token s now).2.current_index = (s.current_index + 1) % s.tokens.length ∧
  (cycle_token s now).2.cached_token = none ∧
  (cycle_token s now).2.tokens = s.tokens ∧
  (cycle_token s now).2.statuses = s.statuses ∧
  (cycle_token s now).1.previous_index = s.current_index ∧
  (cycle_token s now).1.current_index = (s.current_index + 1) % s.tokens.length ∧
  (cycle_token s now).1.total_tokens = s.tokens.length ∧
  (cycle_token s now).1.rate_limited_until =
    (s.statuses.getD ((s.current_index + 1) % s.tokens.length)
      TokenStatus.init).rate_limited_until ∧
  (cycle_token s now).1.consecutive_failures =
    (s.statuses.getD ((s.current_index + 1) % s.tokens.length)
      TokenStatus.init).consecutive_failures ∧
  (cycle_token s now).1.is_rate_limited =
    decide (now < (s.statuses.getD ((s.current_index + 1) % s.tokens.length)
      TokenStatus.init).rate_limited_until) ∧
  (get_cached_copilot_token exchange now2 fuel (cycle_token s now).2).2.1 = true

/-- What a forwarded request with a valid cached token and an upstream
that answers 429 on every attempt does to the pool: all three attempts
reuse the cached bearer token `t`, and the credential penalized on each
429 is `tokens[current_index]` — three bumps land on the credential the
rotation index points at, whatever credential minted `t`; everything
else is unchanged. -/
def PenalizeCurrentIndexSpec (s : TMState) (now fuel : Nat) (b : String)
    (ex : String → ExchangeOutcome) (t : AccessToken) : Prop :=
  (make_api_request (fun _ _ => UpstreamResp.http 429 b) ex now fuel s).1 =
    ApiResult.ok 429 b ∧
  (make_api_request (fun _ _ => UpstreamResp.http 429 b) ex now fuel s).2.2 =
    [t.token, t.token, t.token] ∧
  (make_api_request (fun _ _ => UpstreamResp.http 429 b) ex now fuel s).2.1.tokens =
    s.tokens ∧
  (make_api_request (fun _ _ => UpstreamResp.http 429 b) ex now fuel s).2.1.current_index =
    s.current_index ∧
  (make_api_request (fun _ _ => UpstreamResp.http 429 b) ex now fuel s).2.1.cached_token =
    some t ∧
  ((make_api_request (fun _ _ => UpstreamResp.http 429 b) ex now fuel s).2.1.statuses.getD
      s.current_index TokenStatus.init) =
    { last_error := some "Rate limit exceeded"
      rate_limited_until := now + 60
      consecutive_failures :=
        (s.statuses.getD s.current_index TokenStatus.init).consecutive_failures + 3 } ∧
  (∀ j, j ≠ s.current_index →
    (make_api_request (fun _ _ => UpstreamResp.http 429 b) ex now fuel s).2.1.statuses.getD
        j TokenStatus.init =
      s.statuses.getD j TokenStatus.init)

/-- A well-formed o1 choice: it carries an `index` and a `message`
object with a `content` entry — exactly what `convert_o1_response`
subscripts. -/
def WfChoice (c : JVal) : Prop :=
  ∃ iv mf cv, jget c "index" = some iv ∧
    jget c "message" = some (JVal.jobj mf) ∧ fget mf "content" = some cv

/-- The o1 streaming branch for a 200 body with `n` well-formed choices:
exactly `n` `data:` frames — the `k`-th carrying
`{id, created, model, choices:[reshaped choice k]}` with `finish_reason`
preserved — followed by exactly one `data: [DONE]` frame. -/
def SseConversionSpec (jl : String → Except String JVal) (model text : String)
    (fields : List (String × JVal)) (choices : List JVal) : Prop :=
  (stream_response jl model true (ApiResult.ok 200 text)).length =
    choices.length + 1 ∧
  (stream_response jl model true (ApiResult.ok 200 text)).getLast? =
    some "data: [DONE]\n\n" ∧
  (∀ (k : Nat) c, choices[k]? = some c → ∃ rc,
    convertChoice c = Except.ok (some rc) ∧
    (∀ fr, jget c "finish_reason" = some fr →
      jget rc "finish_reason" = some fr) ∧
    (stream_response jl model true (ApiResult.ok 200 text))[k]? =
      some ("data: " ++ dumps (mkSseEvent fields rc) ++ "\n\n"))

/-- Full behaviour of one `get_next_available_token` call: the returned
index is in range and names the returned token; tokens and cache are
untouched.  If some credential is usable (`rate_limited_until ≤ now`),
the returned index is the first usable one in circular order from
`current_index` (witnessed by a minimal offset), `current_index` stops
there, the chosen credential's lapsed window is healed
(`rate_limited_until := 0`, and `consecutive_failures := 0` exactly when
the previous window was nonzero) and no other status changes.  If every
credential is rate-limited, no status changes, `current_index` is left
where it started, and the returned index minimizes
`rate_limited_until`. -/
def SelectSpec (s : TMState) (now : Nat) : Prop :=
  (get_next_available_token s now).1.2 < s.tokens.length ∧
  (get_next_available_token s now).1.1 =
    s.tokens.getD (get_next_available_token s now).1.2 "" ∧
  (get_next_available_token s now).2.tokens = s.tokens ∧
  (get_next_available_token s now).2.cached_token = s.cached_token ∧
  ((∃ i, i < s.tokens.length ∧
      (s.statuses.getD i TokenStatus.init).rate_limited_until ≤ now) →
    (s.statuses.getD (get_next_available_token s now).1.2
        TokenStatus.init).rate_limited_until ≤ now ∧
    (∃ d, d < s.tokens.length ∧
      (get_next_available_token s now).1.2 =
        (s.current_index + d) % s.tokens.length ∧
      ∀ e, e < d →
        ¬ (s.statuses.getD ((s.current_index + e) % s.tokens.length)
            TokenStatus.init).rate_limited_until ≤ now) ∧
    (get_next_available_token s now).2.current_index =
      (get_next_available_token s now).1.2 ∧
    ((get_next_available_token s now).2.statuses.getD
        (get_next_available_token s now).1.2 TokenStatus.init).rate_limited_until
      = 0 ∧
    ((get_next_available_token s now).2.statuses.getD
        (get_next_available_token s now).1.2 TokenStatus.init).consecutive_failures
      = (if 0 < (s.statuses.getD (get_next_available_token s now).1.2
            TokenStatus.init).rate_limited_until then 0
         else (s.statuses.getD (get_next_available_token s now).1.2
            TokenStatus.init).consecutive_failures) ∧
    (∀ j, j ≠ (get_next_available_token s now).1.2 →
      (get_next_available_token s now).2.statuses.getD j TokenStatus.init =
        s.statuses.getD j TokenStatus.init)) ∧
  ((∀ i, i < s.tokens.length →
      ¬ (s.statuses.getD i TokenStatus.init).rate_limited_until ≤ now) →
    (get_next_available_token s now).2.statuses = s.statuses ∧
    (get_next_available_token s now).2.current_index = s.current_index ∧
    (∀ i, i < s.tokens.length →
      (s.statuses.getD (get_next_available_token s now).1.2
          TokenStatus.init).rate_limited_until ≤
        (s.statuses.getD i TokenStatus.init).rate_limited_until))

/-! ## Helper lemmas -/

/-- Lemma: `mark_token_rate_limited` only writes `statuses`. -/
theorem mark_tokens_eq (s : TMState) (tok : String) (now : Nat) :
    (mark_token_rate_limited s tok now).tokens = s.tokens := rfl

theorem mark_current_index_eq (s : TMState) (tok : String) (now : Nat) :
    (mark_token_rate_limited s tok now).current_index = s.current_index := rfl

theorem mark_cached_eq (s : TMState) (tok : String) (now : Nat) :
    (mark_token_rate_limited s tok now).cached_token = s.cached_token := rfl

theorem mark_statuses_length (s : TMState) (tok : String) (now : Nat) :
    (mark_token_rate_limited s tok now).statuses.length = s.statuses.length := by
  simp [mark_token_rate_limited]

/-- During a scan, `current_index` stays below the pool size. -/
theorem scanLoop_inl_lt (now n : Nat) (st : List TokenStatus) :
    ∀ fuel cur j, 0 < n → cur < n →
      scanLoop now n st fuel cur = Sum.inl j → j < n := by
  intro fuel
  induction fuel with
  | zero => intro cur j _ _ h; simp [scanLoop] at h
  | succ k ih =>
    intro cur j hn hcur h
    unfold scanLoop at h
    by_cases hu : (st.getD cur TokenStatus.init).rate_limited_until ≤ now
    · rw [if_pos hu] at h
      cases h
      exact hcur
    · rw [if_neg hu] at h
      exact ih _ _ hn (Nat.mod_lt _ hn) h

theorem scanLoop_inr_lt (now n : Nat) (st : List TokenStatus) :
    ∀ fuel cur cur', 0 < n → cur < n →
      scanLoop now n st fuel cur = Sum.inr cur' → cur' < n := by
  intro fuel
  induction fuel with
  | zero => intro cur cur' _ hcur h; cases h; exact hcur
  | succ k ih =>
    intro cur cur' hn hcur h
    unfold scanLoop at h
    by_cases hu : (st.getD cur TokenStatus.init).rate_limited_until ≤ now
    · rw [if_pos hu] at h; cases h
    · rw [if_neg hu] at h
      exact ih _ _ hn (Nat.mod_lt _ hn) h

/-- Lemma: `get_next_available_token` only writes `statuses` and
`current_index`. -/
theorem gnat_tokens_eq (s : TMState) (now : Nat) :
    (get_next_available_token s now).2.tokens = s.tokens := by
  cases h : scanLoop now s.tokens.length s.statuses s.tokens.length s.current_index <;>
    simp [get_next_available_token, h]

theorem gnat_cached_eq (s : TMState) (now : Nat) :
    (get_next_available_token s now).2.cached_token = s.cached_token := by
  cases h : scanLoop now s.tokens.length s.statuses s.tokens.length s.current_index <;>
    simp [get_next_available_token, h]

theorem gnat_statuses_length (s : TMState) (now : Nat) :
    (get_next_available_token s now).2.statuses.length = s.statuses.length := by
  cases h : scanLoop now s.tokens.length s.statuses s.tokens.length s.current_index <;>
    simp [get_next_available_token, h]

theorem gnat_current_index_lt (s : TMState) (now : Nat)
    (hn : 0 < s.tokens.length) (hidx : s.current_index < s.tokens.length) :
    (get_next_available_token s now).2.current_index < s.tokens.length := by
  cases h : scanLoop now s.tokens.length s.statuses s.tokens.length s.current_index with
  | inl j =>
    have hj := scanLoop_inl_lt now s.tokens.length s.statuses s.tokens.length
      s.current_index j hn hidx h
    simpa [get_next_available_token, h] using hj
  | inr c =>
    have hc := scanLoop_inr_lt now s.tokens.length s.statuses s.tokens.length
      s.current_index c hn hidx h
    simpa [get_next_available_token, h] using hc

/-- The retry loop of `make_api_request` never reaches its `remaining = 0`
base case (the final `raise HTTPException(429, ...)` of the source) when
started with a positive budget: every path either returns/raises inside
the loop body or continues with a positive budget. -/
theorem make_api_request_loop_ne_pool
    (up : Nat → String → UpstreamResp) (ex : String → ExchangeOutcome)
    (now fuel : Nat) :
    ∀ r attempt s tr, 0 < r →
      (make_api_request_loop up ex now fuel r attempt s tr).1 ≠
        ApiResult.poolExhausted := by
  intro r
  induction r with
  | zero => intro _ _ _ h; omega
  | succ k ih =>
    intro attempt s tr _
    simp only [make_api_request_loop]
    split
    · simp
    · split
      · simp
      · exact ih _ _ _ (by omega)
    · split
      · split
        · simp
        · exact ih _ _ _ (by omega)
      · simp
      · split
        · simp
        · exact ih _ _ _ (by omega)

/-! ## Claim theorems -/

/-- C1 — the claim ("when an attempt's upstream call returns 429 and the
retry budget is not exhausted, the cached access token is discarded
before the next attempt, so the next attempt mints a fresh token tied to
a different credential") fails on the code.  Failing run: two
credentials, a valid cached access token `acc0`, upstream returning 429
on every attempt.  `mark_token_rate_limited` never clears
`cached_token`, so all three attempts attach the same cached bearer
token `acc0`; no fresh token is minted and no different credential is
used, while the source's own log line claims "Retrying with different
token". -/
theorem c1_cache_survives_rate_limit :
    (let run := make_api_request (fun _ _ => UpstreamResp.http 429 "limited")
        (fun _ => ExchangeOutcome.success { token := "fresh", expires_at := 100000 })
        1000 8
        { tokens := ["A", "B"]
          statuses := [TokenStatus.init, TokenStatus.init]
          current_index := 0
          cached_token := some { token := "acc0", expires_at := 100000 } }
     run.2.2 = ["acc0", "acc0", "acc0"] ∧
     run.2.1.cached_token = some { token := "acc0", expires_at := 100000 } ∧
     run.2.1.statuses =
       [{ last_error := some "Rate limit exceeded", rate_limited_until := 1060,
          consecutive_failures := 3 }, TokenStatus.init] ∧
     run.1 = ApiResult.ok 429 "limited") := by
  decide

/-- C2 — scenario B run: one credential, empty cache, token exchange
succeeds, upstream chat call returns 429 on all `MAX_RETRIES` attempts.
The credential's `consecutiveFailures` does end up equal to
`MAX_RETRIES`, but the request does not fail with the pool-exhausted
error: the loop returns the final upstream `(429, body)` tuple, and the
`HTTPException(429, "All tokens are rate limited...")` at the end of
`make_api_request` is unreachable for every input. -/
theorem c2_pool_exhausted_error_unreachable :
    (let run := make_api_request (fun _ _ => UpstreamResp.http 429 "rate limited body")
        (fun _ => ExchangeOutcome.success { token := "acc", expires_at := 100000 })
        1000 8
        { tokens := ["A"], statuses := [TokenStatus.init], current_index := 0,
          cached_token := none }
     run.1 = ApiResult.ok 429 "rate limited body" ∧
     (run.2.1.statuses.getD 0 TokenStatus.init).consecutive_failures = MAX_RETRIES) ∧
    (∀ up ex now fuel s,
      (make_api_request up ex now fuel s).1 ≠ ApiResult.poolExhausted) := by
  constructor
  · decide
  · intro up ex now fuel s
    exact make_api_request_loop_ne_pool up ex now fuel MAX_RETRIES 0 s [] (by decide)

/-- C3 counterexample — with a pool of one credential and every
token-exchange call answering 429, `refresh_token` is still recursing
after 10 nested calls (and after pool-size + 1 = 2 calls): the
recursion is not capped at pool size and the function neither returns
nor raises.  `diverge` is fuel exhaustion, i.e. the recursion outliving
the given call-depth budget. -/
theorem c3_counterexample_recursion_uncapped :
    (refresh_token (fun _ => ExchangeOutcome.rateLimited) 1000 2
      { tokens := ["A"], statuses := [TokenStatus.init], current_index := 0,
        cached_token := none }).1 = RefreshResult.diverge ∧
    (refresh_token (fun _ => ExchangeOutcome.rateLimited) 1000 10
      { tokens := ["A"], statuses := [TokenStatus.init], current_index := 0,
        cached_token := none }).1 = RefreshResult.diverge := by
  constructor <;> decide

/-- C3 amended — `TokenManager.refresh_token`'s retry-on-rate-limit
recursion is unbounded: when every credential's token-exchange call
returns 429, the recursion exceeds every call-depth budget (for any
fuel the run ends in `diverge`), so the function neither returns nor
raises; in particular it is not capped at pool size. -/
theorem c3_refresh_recursion_unbounded (now fuel : Nat) (s : TMState)
    (hn : 0 < s.tokens.length) (hlen : s.statuses.length = s.tokens.length)
    (hidx : s.current_index < s.tokens.length) :
    (refresh_token (fun _ => ExchangeOutcome.rateLimited) now fuel s).1 =
      RefreshResult.diverge := by
  induction fuel generalizing s with
  | zero => rfl
  | succ k ih =>
    have ht1 : (get_next_available_token s now).2.tokens = s.tokens :=
      gnat_tokens_eq s now
    have hl1 : (get_next_available_token s now).2.statuses.length =
        s.statuses.length := gnat_statuses_length s now
    have hi1 : (get_next_available_token s now).2.current_index <
        s.tokens.length := gnat_current_index_lt s now hn hidx
    have hd := ih (mark_token_rate_limited (get_next_available_token s now).2
        (get_next_available_token s now).1.1 now)
      (by rw [mark_tokens_eq, ht1]; exact hn)
      (by rw [mark_statuses_length, mark_tokens_eq, hl1, ht1, hlen])
      (by rw [mark_current_index_eq, mark_tokens_eq, ht1]; exact hi1)
    simp only [refresh_token]
    cases hr : refresh_token (fun _ => ExchangeOutcome.rateLimited) now k
        (mark_token_rate_limited (get_next_available_token s now).2
          (get_next_available_token s now).1.1 now) with
    | mk res s3 =>
      rw [hr] at hd
      simp only at hd
      subst hd
      simp

/-- C3 witness for the amended theorem. -/
theorem c3_refresh_recursion_unbounded_witness :
    0 < ([ "A", "B" ] : List String).length ∧
    (refresh_token (fun _ => ExchangeOutcome.rateLimited) 1000 7
      { tokens := ["A", "B"], statuses := [TokenStatus.init, TokenStatus.init],
        current_index := 0, cached_token := none }).1 = RefreshResult.diverge :=
  ⟨by decide,
   c3_refresh_recursion_unbounded 1000 7
     { tokens := ["A", "B"], statuses := [TokenStatus.init, TokenStatus.init],
       current_index := 0, cached_token := none }
     (by decide) (by decide) (by decide)⟩

/-- C9 — `mark_token_rate_limited(credential)` modifies only the given
credential's status record (incrementing `consecutive_failures`, setting
the 60-second window and `last_error`); `current_index`, every other
credential's status, and the cached access token are left unchanged. -/
theorem c9_mark_token_rate_limited_frame (s : TMState) (tok : String)
    (now : Nat) (htok : tok ∈ s.tokens)
    (hlen : s.statuses.length = s.tokens.length) :
    MarkFrameSpec s tok now := by
  have hi : s.tokens.indexOf tok < s.statuses.length := by
    rw [hlen]; exact List.indexOf_lt_length.mpr htok
  refine ⟨rfl, rfl, rfl, ?_, ?_, ?_, ?_⟩
  · show ((s.statuses.set (s.tokens.indexOf tok) _).getD (s.tokens.indexOf tok)
      TokenStatus.init).consecutive_failures = _
    rw [List.getD_eq_getElem?_getD, List.getElem?_set_self hi]
    rfl
  · show ((s.statuses.set (s.tokens.indexOf tok) _).getD (s.tokens.indexOf tok)
      TokenStatus.init).rate_limited_until = _
    rw [List.getD_eq_getElem?_getD, List.getElem?_set_self hi]
    rfl
  · show ((s.statuses.set (s.tokens.indexOf tok) _).getD (s.tokens.indexOf tok)
      TokenStatus.init).last_error = _
    rw [List.getD_eq_getElem?_getD, List.getElem?_set_self hi]
    rfl
  · intro j hj
    show (s.statuses.set (s.tokens.indexOf tok) _).getD j TokenStatus.init = _
    rw [List.getD_eq_getElem?_getD, List.getElem?_set_ne (Ne.symm hj),
      ← List.getD_eq_getElem?_getD]

/-- C9 witness. -/
theorem c9_mark_token_rate_limited_frame_witness :
    ("B" ∈ (["A", "B", "C"] : List String) ∧
      ([TokenStatus.init, TokenStatus.init, TokenStatus.init] : List TokenStatus).length =
        (["A", "B", "C"] : List String).length) ∧
    MarkFrameSpec
      { tokens := ["A", "B", "C"]
        statuses := [TokenStatus.init, TokenStatus.init, TokenStatus.init]
        current_index := 2
        cached_token := some { token := "acc", expires_at := 5000 } } "B" 1000 :=
  ⟨⟨by decide, by decide⟩,
   c9_mark_token_rate_limited_frame
     { tokens := ["A", "B", "C"]
       statuses := [TokenStatus.init, TokenStatus.init, TokenStatus.init]
       current_index := 2
       cached_token := some { token := "acc", expires_at := 5000 } } "B" 1000
     (by decide) (by decide)⟩

/-- C8 — `cycle_token` advances `currentIndex` by one with wraparound and
invalidates the cached access token, so the next
`get_cached_copilot_token` call performs a refresh even though the
previously cached token `t` had not expired (`now2 + 300 <
t.expires_at`); it returns the previous and new index, the pool size,
and the new current credential's status snapshot. -/
theorem c8_cycle_token_invalidates_cache (s : TMState) (now now2 fuel : Nat)
    (exchange : String → ExchangeOutcome) (t : AccessToken)
    (hn : 0 < s.tokens.length) (hc : s.cached_token = some t)
    (hval : now2 + 300 < t.expires_at) :
    CycleSpec s now now2 fuel exchange := by
  refine ⟨rfl, rfl, rfl, rfl, rfl, rfl, rfl, rfl, rfl, rfl, ?_⟩
  have hnone : (cycle_token s now).2.cached_token = none := rfl
  simp only [get_cached_copilot_token, hnone]
  split <;> rfl

/-- C8 witness. -/
theorem c8_cycle_token_invalidates_cache_witness :
    (0 < (["A", "B"] : List String).length ∧
      (some { token := "acc", expires_at := 9000 } : Option AccessToken) =
        some { token := "acc", expires_at := 9000 } ∧
      1000 + 300 < 9000) ∧
    CycleSpec
      { tokens := ["A", "B"]
        statuses := [TokenStatus.init,
          { last_error := none, rate_limited_until := 1200, consecutive_failures := 4 }]
        current_index := 0
        cached_token := some { token := "acc", expires_at := 9000 } }
      1000 1000 5 (fun _ => ExchangeOutcome.rateLimited) :=
  ⟨⟨by decide, rfl, by decide⟩,
   c8_cycle_token_invalidates_cache
     { tokens := ["A", "B"]
       statuses := [TokenStatus.init,
         { last_error := none, rate_limited_until := 1200, consecutive_failures := 4 }]
       current_index := 0
       cached_token := some { token := "acc", expires_at := 9000 } }
     1000 1000 5 (fun _ => ExchangeOutcome.rateLimited)
     { token := "acc", expires_at := 9000 }
     (by decide) rfl (by decide)⟩

/-- Lemma: `convert_to_sse_events` never succeeds with an empty frame list: the
terminal `data: [DONE]` frame is always appended. -/
theorem convert_to_sse_events_ne_nil (d : JVal) (evs : List String)
    (h : convert_to_sse_events d = Except.ok evs) : evs ≠ [] := by
  cases d with
  | jobj fields =>
    rw [convert_to_sse_events] at h
    cases hc : fget fields "choices" with
    | none =>
      rw [hc] at h
      cases h
      simp
    | some cv =>
      rw [hc] at h
      cases cv with
      | jarr cs =>
        cases h
        simp
      | null => cases h
      | jbool b => cases h
      | jnum n => cases h
      | jstr s => cases h
      | jobj fs => cases h
  | null => cases h
  | jbool b => cases h
  | jnum n => cases h
  | jstr s => cases h
  | jarr xs => cases h

/-- C6 — every outcome of the attempt loop yields at least one frame and
any exception is converted into a single `{"error": …}` frame: a raised
exception becomes exactly one terminal error frame, and a `json.loads`
failure in the o1 conversion path likewise becomes exactly one error
frame.  The hypothesis excludes `diverge`, which models
`refresh_token`'s recursion not terminating — a run that never returns,
not one that returns without writing. -/
theorem c6_stream_always_writes (jl : String → Except String JVal)
    (model : String) (strm : Bool) (r : ApiResult)
    (hr : r ≠ ApiResult.diverge) :
    stream_response jl model strm r ≠ [] ∧
    (∀ m, r = ApiResult.raised m →
      stream_response jl model strm r = [errFrame m]) ∧
    (∀ text m, r = ApiResult.ok 200 text →
      strStartsWith model "o1" = true → strm = true →
      jl text = Except.error m →
      stream_response jl model strm r = [errFrame m]) := by
  refine ⟨?_, ?_, ?_⟩
  · cases r with
    | raised m => simp [stream_response]
    | poolExhausted => simp [stream_response]
    | diverge => exact absurd rfl hr
    | ok status text =>
      rw [stream_response]
      split
      · simp
      · split
        · cases hjl : jl text with
          | error m => simp [hjl]
          | ok d =>
            cases hcv : convert_o1_response d with
            | error m => simp [hjl, hcv]
            | ok c =>
              cases hsse : convert_to_sse_events c with
              | error m => simp [hjl, hcv, hsse]
              | ok evs =>
                simp only [hjl, hcv, hsse]
                exact convert_to_sse_events_ne_nil c evs hsse
        · simp
  · intro m hm
    subst hm
    rfl
  · intro text m hok hsw hstrm hjl
    subst hok hstrm
    rw [stream_response]
    rw [if_neg (by simp)]
    rw [if_pos (by simp [hsw])]
    rw [hjl]

/-- C6 witness. -/
theorem c6_stream_always_writes_witness :
    (ApiResult.raised "boom" ≠ ApiResult.diverge) ∧
    (stream_response (fun _ => Except.error "parse") "o1-preview" true
        (ApiResult.raised "boom") ≠ [] ∧
      (∀ m, ApiResult.raised "boom" = ApiResult.raised m →
        stream_response (fun _ => Except.error "parse") "o1-preview" true
          (ApiResult.raised "boom") = [errFrame m]) ∧
      (∀ text m, ApiResult.raised "boom" = ApiResult.ok 200 text →
        strStartsWith "o1-preview" "o1" = true → true = true →
        (Except.error "parse" : Except String JVal) = Except.error m →
        stream_response (fun _ => Except.error "parse") "o1-preview" true
          (ApiResult.raised "boom") = [errFrame m])) :=
  ⟨by decide,
   c6_stream_always_writes (fun _ => Except.error "parse") "o1-preview" true
     (ApiResult.raised "boom") (by decide)⟩

/-- A string with the `"o1"` name prefix is nonempty (truthy), so the
`model and model.startswith("o1")` guard reduces to the `startswith`
test. -/
theorem strStartsWith_o1_ne_empty (s : String)
    (h : strStartsWith s "o1" = true) : s.data.isEmpty = false := by
  cases hd : s.data with
  | nil =>
    rw [strStartsWith] at h
    rw [hd] at h
    have ho : ("o1" : String).data = ['o', '1'] := rfl
    rw [ho] at h
    simp [List.isPrefixOf] at h
  | cons c cs => simp

/-- C10 — for every request body whose model name starts with `"o1"`,
`preprocess_request_body` rewrites each `"system"` message role to
`"user"`, so a successfully preprocessed message list contains no
system-role message. -/
theorem c10_o1_no_system_role (sanitize : String → String) (b b' : ReqBody)
    (hm : strStartsWith (b.model.getD "") "o1" = true)
    (h : preprocess_request_body sanitize b = Except.ok b') :
    ∀ m ∈ b'.messages.getD [], m.role ≠ "system" := by
  intro m hmem
  have hcond : (!(b.model.getD "").data.isEmpty &&
      strStartsWith (b.model.getD "") "o1") = true := by
    simp [strStartsWith_o1_ne_empty _ hm, hm]
  rw [preprocess_request_body] at h
  split at h
  · next heq =>
    cases h
    rw [heq] at hmem
    simp at hmem
  · next heq =>
    cases h
    rw [heq] at hmem
    simp at hmem
  · next msgs heq =>
    split at h
    · cases h
    · next pms hmap =>
      simp only [hcond, if_true] at h
      injection h with h
      subst h
      simp only [Option.getD] at hmem
      rcases List.mem_map.mp hmem with ⟨x, _, hfx⟩
      by_cases hx : x.role = "system"
      · rw [if_pos hx] at hfx
        rw [← hfx]
        simp
      · rw [if_neg hx] at hfx
        rw [← hfx]
        exact hx

/-- C10 witness. -/
theorem c10_o1_no_system_role_witness :
    (strStartsWith
        (({ model := some "o1-mini"
            messages := some [{ role := "system", content := JVal.jstr "be nice" },
                              { role := "user", content := JVal.jstr "hi" }]
            max_tokens := none } : ReqBody).model.getD "") "o1" = true) ∧
    (preprocess_request_body id
        { model := some "o1-mini"
          messages := some [{ role := "system", content := JVal.jstr "be nice" },
                            { role := "user", content := JVal.jstr "hi" }]
          max_tokens := none } =
      Except.ok
        { model := some "o1-mini"
          messages := some [{ role := "user", content := JVal.jstr "be nice" },
                            { role := "user", content := JVal.jstr "hi" }]
          max_tokens := some MAX_TOKENS }) ∧
    (∀ m ∈ (({ model := some "o1-mini"
               messages := some [{ role := "user", content := JVal.jstr "be nice" },
                                 { role := "user", content := JVal.jstr "hi" }]
               max_tokens := some MAX_TOKENS } : ReqBody)).messages.getD [],
      m.role ≠ "system") :=
  ⟨by decide, rfl,
   c10_o1_no_system_role id
     { model := some "o1-mini"
       messages := some [{ role := "system", content := JVal.jstr "be nice" },
                         { role := "user", content := JVal.jstr "hi" }]
       max_tokens := none }
     { model := some "o1-mini"
       messages := some [{ role := "user", content := JVal.jstr "be nice" },
                         { role := "user", content := JVal.jstr "hi" }]
       max_tokens := some MAX_TOKENS }
     (by decide) rfl⟩

/-- A valid cached token short-circuits `get_cached_copilot_token`: no
refresh happens and the state is untouched. -/
theorem get_cached_hit (ex : String → ExchangeOutcome) (now fuel : Nat)
    (s : TMState) (t : AccessToken) (hc : s.cached_token = some t)
    (hval : now + 300 < t.expires_at) :
    get_cached_copilot_token ex now fuel s = (RefreshResult.ok t, false, s) := by
  rw [get_cached_copilot_token, hc]
  simp [hval]

/-- In a duplicate-free pool `tokens[i]` resolves back to index `i`. -/
theorem indexOf_getD_self (l : List String) (i : Nat) (hnd : l.Nodup)
    (hi : i < l.length) : l.indexOf (l.getD i "") = i := by
  rw [List.getD_eq_getElem?_getD, List.getElem?_eq_getElem hi]
  simpa using List.get_indexOf hnd ⟨i, hi⟩

/-- The status `mark_token_rate_limited` writes at the token's index. -/
theorem mark_statuses_getD_self (s : TMState) (tok : String) (now : Nat)
    (hi : s.tokens.indexOf tok < s.statuses.length) :
    (mark_token_rate_limited s tok now).statuses.getD (s.tokens.indexOf tok)
      TokenStatus.init =
    { last_error := some "Rate limit exceeded"
      rate_limited_until := now + 60
      consecutive_failures :=
        (s.statuses.getD (s.tokens.indexOf tok)
          TokenStatus.init).consecutive_failures + 1 } := by
  show (s.statuses.set (s.tokens.indexOf tok) _).getD (s.tokens.indexOf tok)
    TokenStatus.init = _
  rw [List.getD_eq_getElem?_getD, List.getElem?_set_self hi]
  rfl

/-- Lemma: `mark_token_rate_limited` leaves every other index unchanged. -/
theorem mark_statuses_getD_ne (s : TMState) (tok : String) (now : Nat)
    (j : Nat) (hj : j ≠ s.tokens.indexOf tok) :
    (mark_token_rate_limited s tok now).statuses.getD j TokenStatus.init =
      s.statuses.getD j TokenStatus.init := by
  show (s.statuses.set (s.tokens.indexOf tok) _).getD j TokenStatus.init = _
  rw [List.getD_eq_getElem?_getD, List.getElem?_set_ne (Ne.symm hj),
    ← List.getD_eq_getElem?_getD]

/-- One 429 iteration of the retry loop with budget left: penalize
`tokens[current_index]` and continue, cache untouched. -/
theorem loop_429_continue (up : Nat → String → UpstreamResp)
    (ex : String → ExchangeOutcome) (now fuel r attempt : Nat) (s : TMState)
    (tr : List String) (t : AccessToken) (b : String)
    (hc : s.cached_token = some t) (hval : now + 300 < t.expires_at)
    (hup : up attempt t.token = UpstreamResp.http 429 b) (hr : r ≠ 0) :
    make_api_request_loop up ex now fuel (r + 1) attempt s tr =
      make_api_request_loop up ex now fuel r (attempt + 1)
        (mark_token_rate_limited s (s.tokens.getD s.current_index "") now)
        (tr ++ [t.token]) := by
  rw [make_api_request_loop]
  rw [get_cached_hit ex now fuel s t hc hval]
  simp only [hup, hr, if_false, reduceCtorEq, ite_false]

/-- The final 429 iteration of the retry loop: penalize
`tokens[current_index]` and return the upstream `(429, body)` tuple. -/
theorem loop_429_stop (up : Nat → String → UpstreamResp)
    (ex : String → ExchangeOutcome) (now fuel attempt : Nat) (s : TMState)
    (tr : List String) (t : AccessToken) (b : String)
    (hc : s.cached_token = some t) (hval : now + 300 < t.expires_at)
    (hup : up attempt t.token = UpstreamResp.http 429 b) :
    make_api_request_loop up ex now fuel (0 + 1) attempt s tr =
      (ApiResult.ok 429 b,
       mark_token_rate_limited s (s.tokens.getD s.current_index "") now,
       tr ++ [t.token]) := by
  rw [make_api_request_loop]
  rw [get_cached_hit ex now fuel s t hc hval]
  simp only [hup, if_true, ite_true]

/-- C4 amended — on each 429 the code penalizes `tokens[current_index]`
as observed when the 429 arrives, not the credential backing the bearer
token used for the attempt: under a valid cached token `t` (of whatever
origin) and an always-429 upstream, all three bumps land on the
credential at `current_index` and the trace shows `t` being reused. -/
theorem c4_penalize_targets_current_index (s : TMState) (now fuel : Nat)
    (b : String) (ex : String → ExchangeOutcome) (t : AccessToken)
    (hnd : s.tokens.Nodup) (hlen : s.statuses.length = s.tokens.length)
    (hidx : s.current_index < s.tokens.length)
    (hc : s.cached_token = some t) (hval : now + 300 < t.expires_at) :
    PenalizeCurrentIndexSpec s now fuel b ex t := by
  have hi' : s.current_index < s.statuses.length := by rw [hlen]; exact hidx
  have hIdx : s.tokens.indexOf (s.tokens.getD s.current_index "") =
      s.current_index := indexOf_getD_self _ _ hnd hidx
  set tok := s.tokens.getD s.current_index "" with htok
  set s1 := mark_token_rate_limited s tok now with hs1
  have h1c : s1.cached_token = some t := by rw [hs1, mark_cached_eq, hc]
  have h1t : s1.tokens = s.tokens := by rw [hs1, mark_tokens_eq]
  have h1i : s1.current_index = s.current_index := by rw [hs1, mark_current_index_eq]
  have h1tok : s1.tokens.getD s1.current_index "" = tok := by
    rw [h1t, h1i, htok]
  set s2 := mark_token_rate_limited s1 tok now with hs2
  have h2c : s2.cached_token = some t := by rw [hs2, mark_cached_eq, h1c]
  have h2t : s2.tokens = s.tokens := by rw [hs2, mark_tokens_eq, h1t]
  have h2i : s2.current_index = s.current_index := by rw [hs2, mark_current_index_eq, h1i]
  have h2tok : s2.tokens.getD s2.current_index "" = tok := by
    rw [h2t, h2i, htok]
  set s3 := mark_token_rate_limited s2 tok now with hs3
  have h3c : s3.cached_token = some t := by rw [hs3, mark_cached_eq, h2c]
  have h3t : s3.tokens = s.tokens := by rw [hs3, mark_tokens_eq, h2t]
  have h3i : s3.current_index = s.current_index := by rw [hs3, mark_current_index_eq, h2i]
  have hrun : make_api_request (fun _ _ => UpstreamResp.http 429 b) ex now fuel s =
      (ApiResult.ok 429 b, s3, [t.token, t.token, t.token]) := by
    rw [make_api_request]
    rw [show MAX_RETRIES = 2 + 1 from rfl]
    rw [loop_429_continue _ ex now fuel 2 0 s [] t b hc hval rfl (by decide)]
    rw [← htok, ← hs1]
    rw [show (2 : Nat) = 1 + 1 from rfl]
    rw [loop_429_continue _ ex now fuel 1 1 s1 ([] ++ [t.token]) t b h1c hval rfl
      (by decide)]
    rw [h1tok, ← hs2]
    rw [show (1 : Nat) = 0 + 1 from rfl]
    rw [loop_429_stop _ ex now fuel 2 s2 (([] ++ [t.token]) ++ [t.token]) t b h2c
      hval rfl]
    rw [h2tok, ← hs3]
    simp
  -- status bookkeeping at the penalized index
  have hb1 : s.tokens.indexOf tok < s.statuses.length := by rw [hIdx] at *; exact hi'
  have g1 : s1.statuses.getD s.current_index TokenStatus.init =
      { last_error := some "Rate limit exceeded"
        rate_limited_until := now + 60
        consecutive_failures :=
          (s.statuses.getD s.current_index TokenStatus.init).consecutive_failures + 1 } := by
    have h := mark_statuses_getD_self s tok now (by rw [hIdx]; exact hi')
    rw [hIdx] at h
    rw [hs1]
    exact h
  have hlen1 : s1.statuses.length = s.statuses.length := by rw [hs1, mark_statuses_length]
  have g2 : s2.statuses.getD s.current_index TokenStatus.init =
      { last_error := some "Rate limit exceeded"
        rate_limited_until := now + 60
        consecutive_failures :=
          (s.statuses.getD s.current_index TokenStatus.init).consecutive_failures + 2 } := by
    have h := mark_statuses_getD_self s1 tok now
      (by rw [h1t, hIdx, hlen1]; exact hi')
    rw [h1t, hIdx] at h
    rw [hs2]
    rw [h, g1]
  have hlen2 : s2.statuses.length = s.statuses.length := by
    rw [hs2, mark_statuses_length, hlen1]
  have g3 : s3.statuses.getD s.current_index TokenStatus.init =
      { last_error := some "Rate limit exceeded"
        rate_limited_until := now + 60
        consecutive_failures :=
          (s.statuses.getD s.current_index TokenStatus.init).consecutive_failures + 3 } := by
    have h := mark_statuses_getD_self s2 tok now
      (by rw [h2t, hIdx, hlen2]; exact hi')
    rw [h2t, hIdx] at h
    rw [hs3]
    rw [h, g2]
  refine ⟨?_, ?_, ?_, ?_, ?_, ?_, ?_⟩
  · rw [hrun]
  · rw [hrun]
  · rw [hrun]; exact h3t
  · rw [hrun]; exact h3i
  · rw [hrun]; exact h3c
  · rw [hrun]; exact g3
  · intro j hj
    rw [hrun]
    have n3 := mark_statuses_getD_ne s2 tok now j (by rw [h2t, hIdx]; exact hj)
    have n2 := mark_statuses_getD_ne s1 tok now j (by rw [h1t, hIdx]; exact hj)
    have n1 := mark_statuses_getD_ne s tok now j (by rw [hIdx]; exact hj)
    exact n3.trans (n2.trans n1)

/-- C4 counterexample — the claim ("the credential penalized is exactly
the credential backing the access token used for that attempt") is false
on the code.  Run: two credentials `A` (index 0, rate-limited until
1050) and `B` (index 1, rate-limited until 1010), `current_index = 0`,
empty cache, clock 1000.  `get_next_available_token` takes the
all-rate-limited fallback and picks `B` (soonest available) without
moving `current_index`; the exchange mints `accB` from `B`; the first
upstream call answers 429.  The code then penalizes
`tokens[current_index] = A`: afterwards `A` has one failure and a fresh
60-second window while `B` — the credential backing the token actually
used (the trace shows `accB`) — is untouched. -/
theorem c4_counterexample_penalizes_wrong_credential :
    (let run := make_api_request
        (fun n _ => if n = 0 then UpstreamResp.http 429 "lim"
                    else UpstreamResp.http 200 "okbody")
        (fun tk => if tk = "B"
                   then ExchangeOutcome.success { token := "accB", expires_at := 100000 }
                   else ExchangeOutcome.success { token := "accA", expires_at := 100000 })
        1000 8
        { tokens := ["A", "B"]
          statuses := [{ last_error := none, rate_limited_until := 1050,
                         consecutive_failures := 0 },
                       { last_error := none, rate_limited_until := 1010,
                         consecutive_failures := 0 }]
          current_index := 0
          cached_token := none }
     run.2.2 = ["accB", "accB"] ∧
     run.2.1.statuses =
       [{ last_error := some "Rate limit exceeded", rate_limited_until := 1060,
          consecutive_failures := 1 },
        { last_error := none, rate_limited_until := 1010,
          consecutive_failures := 0 }] ∧
     run.2.1.cached_token = some { token := "accB", expires_at := 100000 } ∧
     run.1 = ApiResult.ok 200 "okbody") := by
  decide

/-- C4 witness for the amended theorem. -/
theorem c4_penalize_targets_current_index_witness :
    ((["A", "B"] : List String).Nodup ∧
      ([{ last_error := none, rate_limited_until := 990, consecutive_failures := 2 },
        TokenStatus.init] : List TokenStatus).length =
        (["A", "B"] : List String).length ∧
      0 < (["A", "B"] : List String).length ∧
      (some { token := "accB", expires_at := 100000 } : Option AccessToken) =
        some { token := "accB", expires_at := 100000 } ∧
      1000 + 300 < 100000) ∧
    PenalizeCurrentIndexSpec
      { tokens := ["A", "B"]
        statuses := [{ last_error := none, rate_limited_until := 990,
                       consecutive_failures := 2 }, TokenStatus.init]
        current_index := 0
        cached_token := some { token := "accB", expires_at := 100000 } }
      1000 8 "lim" (fun _ => ExchangeOutcome.rateLimited)
      { token := "accB", expires_at := 100000 } :=
  ⟨⟨by decide, by decide, by decide, rfl, by decide⟩,
   c4_penalize_targets_current_index
     { tokens := ["A", "B"]
       statuses := [{ last_error := none, rate_limited_until := 990,
                      consecutive_failures := 2 }, TokenStatus.init]
       current_index := 0
       cached_token := some { token := "accB", expires_at := 100000 } }
     1000 8 "lim" (fun _ => ExchangeOutcome.rateLimited)
     { token := "accB", expires_at := 100000 }
     (by decide) (by decide) (by decide) rfl (by decide)⟩

/-- Unfolding `fget` on a cons cell. -/
theorem fget_cons (x : String × JVal) (xs : List (String × JVal)) (q : String) :
    fget (x :: xs) q = if (x.1 == q) = true then some x.2 else fget xs q := by
  cases hbq : (x.1 == q) with
  | true => simp [fget, List.find?, hbq]
  | false => simp [fget, List.find?, hbq]

/-- Unfolding `setKey` on a cons cell. -/
theorem setKey_cons (x : String × JVal) (xs : List (String × JVal))
    (k : String) (v : JVal) :
    setKey (x :: xs) k v =
      (if (x.1 == k) = true then (x.1, v) else x) :: setKey xs k v := rfl

/-- Updating an existing key with `{**data, k: v}` makes `k` map to `v`. -/
theorem fget_setKey_self (fs : List (String × JVal)) (k : String) (v w : JVal)
    (h : fget fs k = some w) : fget (setKey fs k v) k = some v := by
  induction fs with
  | nil => simp [fget] at h
  | cons x xs ih =>
    rw [fget_cons] at h
    rw [setKey_cons]
    cases hbk : (x.1 == k) with
    | true => simp [fget_cons, hbk]
    | false =>
      rw [hbk] at h
      simp only [Bool.false_eq_true, if_false] at h
      rw [fget_cons]
      simp only [hbk, Bool.false_eq_true, if_false]
      exact ih h

/-- Updating key `k` leaves every other key's value unchanged. -/
theorem fget_setKey_ne (fs : List (String × JVal)) (k : String) (v : JVal)
    (q : String) (hne : (q == k) = false) :
    fget (setKey fs k v) q = fget fs q := by
  induction fs with
  | nil => simp [fget, setKey]
  | cons x xs ih =>
    rw [setKey_cons]
    cases hxk : (x.1 == k) with
    | true =>
      have h1 : x.1 = k := by simpa using hxk
      have hxq : (x.1 == q) = false := by
        cases hq : (x.1 == q) with
        | false => rfl
        | true =>
          have h2 : x.1 = q := by simpa using hq
          rw [← h2, h1] at hne
          simp at hne
      simp only [eq_self_iff_true, if_true]
      rw [fget_cons, fget_cons]
      simp only [hxq, Bool.false_eq_true, if_false]
      exact ih
    | false =>
      rw [fget_cons, fget_cons]
      simp only [hxk, Bool.false_eq_true, if_false]
      cases hxq : (x.1 == q) with
      | true => simp [hxq]
      | false =>
        simp only [hxq, Bool.false_eq_true, if_false]
        exact ih

/-- Replacing the `"choices"` entry does not change the `id`, `created`
and `model` fields the SSE event is built from. -/
theorem mkSseEvent_setKey (fields : List (String × JVal)) (v c : JVal) :
    mkSseEvent (setKey fields "choices" v) c = mkSseEvent fields c := by
  unfold mkSseEvent
  rw [fget_setKey_ne fields "choices" v "id" (by decide),
      fget_setKey_ne fields "choices" v "created" (by decide),
      fget_setKey_ne fields "choices" v "model" (by decide)]

/-- A well-formed choice reshapes successfully, and the reshaped choice
keeps the original `finish_reason` when present. -/
theorem convertChoice_wf_ok (c : JVal) (h : WfChoice c) :
    ∃ rc, convertChoice c = Except.ok (some rc) ∧
      (∀ fr, jget c "finish_reason" = some fr →
        jget rc "finish_reason" = some fr) := by
  obtain ⟨iv, mf, cv, hidx, hmsg, hct⟩ := h
  cases c with
  | jobj cf =>
    simp only [jget] at hidx hmsg
    cases hfr : fget cf "finish_reason" with
    | none =>
      refine ⟨JVal.jobj [("index", iv), ("delta", JVal.jobj [("content", cv)])],
        ?_, ?_⟩
      · simp only [convertChoice, hmsg, hidx, hct, hfr]
      · intro fr hfr'
        simp only [jget] at hfr'
        rw [hfr] at hfr'
        cases hfr'
    | some fr0 =>
      refine ⟨JVal.jobj [("index", iv), ("delta", JVal.jobj [("content", cv)]),
        ("finish_reason", fr0)], ?_, ?_⟩
      · simp only [convertChoice, hmsg, hidx, hct, hfr]
        rfl
      · intro fr hfr'
        simp only [jget] at hfr'
        rw [hfr] at hfr'
        cases hfr'
        rfl
  | null => simp [jget] at hidx
  | jbool b => simp [jget] at hidx
  | jnum n => simp [jget] at hidx
  | jstr s => simp [jget] at hidx
  | jarr xs => simp [jget] at hidx

/-- Lemma: `convert_o1_response`'s choice loop on an all-well-formed list:
succeeds, preserves length, and reshapes position-wise. -/
theorem convertChoices_ok (l : List JVal) (h : ∀ c ∈ l, WfChoice c) :
    ∃ out, convertChoices l = Except.ok out ∧ out.length = l.length ∧
      (∀ (k : Nat) c, l[k]? = some c → ∃ rc,
        convertChoice c = Except.ok (some rc) ∧
        (∀ fr, jget c "finish_reason" = some fr →
          jget rc "finish_reason" = some fr) ∧
        out[k]? = some rc) := by
  induction l with
  | nil =>
    refine ⟨[], rfl, rfl, ?_⟩
    intro k c hk
    simp at hk
  | cons c0 cs ih =>
    obtain ⟨rc0, hc0, hfr0⟩ := convertChoice_wf_ok c0 (h c0 (by simp))
    obtain ⟨out, hout, hlen, hcorr⟩ := ih (fun c hc => h c (by simp [hc]))
    refine ⟨rc0 :: out, ?_, by simp [hlen], ?_⟩
    · rw [convertChoices, hc0, hout]
    · intro k c hk
      cases k with
      | zero =>
        rw [List.getElem?_cons_zero] at hk
        cases hk
        exact ⟨rc0, hc0, hfr0, List.getElem?_cons_zero⟩
      | succ k' =>
        rw [List.getElem?_cons_succ] at hk
        obtain ⟨rc, h1, h2, h3⟩ := hcorr k' c hk
        refine ⟨rc, h1, h2, ?_⟩
        rw [List.getElem?_cons_succ]
        exact h3

/-- Lemma: `convert_o1_response` on a body whose (nonempty) choice list
converts cleanly: the body is rebuilt with the reshaped choices. -/
theorem convert_o1_response_wf (fields : List (String × JVal)) (c0 : JVal)
    (cs : List JVal) (conv : List JVal)
    (hch : fget fields "choices" = some (JVal.jarr (c0 :: cs)))
    (hconv : convertChoices (c0 :: cs) = Except.ok conv) :
    convert_o1_response (JVal.jobj fields) =
      Except.ok (JVal.jobj (setKey fields "choices" (JVal.jarr conv))) := by
  simp only [convert_o1_response, hch, hconv]

/-- Lemma: `convert_to_sse_events` on an object with an array `choices`. -/
theorem convert_to_sse_events_obj (fields : List (String × JVal))
    (choices : List JVal)
    (hch : fget fields "choices" = some (JVal.jarr choices)) :
    convert_to_sse_events (JVal.jobj fields) =
      Except.ok
        ((choices.map (fun c => "data: " ++ dumps (mkSseEvent fields c) ++ "\n\n")) ++
         ["data: [DONE]\n\n"]) := by
  simp only [convert_to_sse_events, hch]

/-- C5 amended — for a 200 upstream response with an `o1*` model and
`stream=true`, whose parsed body is an object with an array of `n`
choices each holding a *message with content and an index*, the emitted
stream is exactly `n` `data: {…}\n\n` frames — each carrying
`{id, created, model, choices:[choice]}` with the choice reshaped to a
`delta` and `finish_reason` preserved — followed by exactly one
`data: [DONE]\n\n` frame.  (The index/content requirement is what the code's
subscripting forces; a choice without an `index` raises instead.) -/
theorem c5_o1_sse_conversion (jl : String → Except String JVal)
    (model text : String) (fields : List (String × JVal)) (choices : List JVal)
    (hm : strStartsWith model "o1" = true)
    (hjl : jl text = Except.ok (JVal.jobj fields))
    (hch : fget fields "choices" = some (JVal.jarr choices))
    (hwf : ∀ c ∈ choices, WfChoice c) :
    SseConversionSpec jl model text fields choices := by
  cases choices with
  | nil =>
    have ho1 : convert_o1_response (JVal.jobj fields) =
        Except.ok (JVal.jobj fields) := by
      simp only [convert_o1_response, hch]
    have hsse := convert_to_sse_events_obj fields [] hch
    simp only [List.map_nil, List.nil_append] at hsse
    have hstream : stream_response jl model true (ApiResult.ok 200 text) =
        ["data: [DONE]\n\n"] := by
      rw [stream_response]
      rw [if_neg (by simp)]
      rw [if_pos (by simp [hm])]
      simp only [hjl, ho1, hsse]
    refine ⟨?_, ?_, ?_⟩
    · rw [hstream]; rfl
    · rw [hstream]; rfl
    · intro k c hk
      simp at hk
  | cons c0 cs =>
    obtain ⟨conv, hconv, hclen, hcorr⟩ := convertChoices_ok (c0 :: cs) hwf
    have ho1 := convert_o1_response_wf fields c0 cs conv hch hconv
    have hf2 : fget (setKey fields "choices" (JVal.jarr conv)) "choices" =
        some (JVal.jarr conv) := fget_setKey_self fields "choices" _ _ hch
    have hsse := convert_to_sse_events_obj _ conv hf2
    have hmapeq : conv.map (fun c =>
        "data: " ++ dumps (mkSseEvent (setKey fields "choices" (JVal.jarr conv)) c)
          ++ "\n\n") =
        conv.map (fun c => "data: " ++ dumps (mkSseEvent fields c) ++ "\n\n") := by
      apply List.map_congr_left
      intro a _
      rw [mkSseEvent_setKey]
    rw [hmapeq] at hsse
    have hstream : stream_response jl model true (ApiResult.ok 200 text) =
        (conv.map (fun c => "data: " ++ dumps (mkSseEvent fields c) ++ "\n\n")) ++
          ["data: [DONE]\n\n"] := by
      rw [stream_response]
      rw [if_neg (by simp)]
      rw [if_pos (by simp [hm])]
      simp only [hjl, ho1, hsse]
    refine ⟨?_, ?_, ?_⟩
    · rw [hstream]
      simp [hclen]
    · rw [hstream]
      simp [List.getLast?_append]
    · intro k c hk
      obtain ⟨rc, h1, h2, h3⟩ := hcorr k c hk
      refine ⟨rc, h1, h2, ?_⟩
      rw [hstream]
      have hklt : k < conv.length := by
        rw [hclen]
        exact (List.getElem?_eq_some.mp hk).1
      rw [List.getElem?_append]
      rw [if_pos (by simpa using hklt)]
      rw [List.getElem?_map, h3]
      rfl

/-- C5 counterexample — the claim as stated (any JSON body "containing n
choices each holding a message" yields n `data:` frames plus `DONE`)
fails on the code: a 200 body with one choice that holds a `message`
but no `index` key makes `convert_o1_response` raise (`KeyError:
choice["index"]`), so the caller gets a single `{"error": …}` frame —
1 frame instead of the claimed n + 1 = 2, and no `DONE` frame. -/
theorem c5_counterexample_missing_index :
    stream_response
        (fun _ => Except.ok (JVal.jobj [("choices", JVal.jarr
          [JVal.jobj [("message", JVal.jobj [("content", JVal.jstr "hi")])]])]))
        "o1-preview" true (ApiResult.ok 200 "raw") =
      [errFrame "KeyError: index"] ∧
    (stream_response
        (fun _ => Except.ok (JVal.jobj [("choices", JVal.jarr
          [JVal.jobj [("message", JVal.jobj [("content", JVal.jstr "hi")])]])]))
        "o1-preview" true (ApiResult.ok 200 "raw")).length = 1 ∧
    (1 : Nat) ≠ 1 + 1 := by
  refine ⟨rfl, rfl, by decide⟩

/-- C5 witness for the amended theorem (scenario C: two choices with
messages, the first also carrying a `finish_reason`). -/
theorem c5_o1_sse_conversion_witness :
    (strStartsWith "o1-preview" "o1" = true ∧
      (∀ c ∈ [JVal.jobj [("index", JVal.jnum 0),
                ("message", JVal.jobj [("role", JVal.jstr "assistant"),
                  ("content", JVal.jstr "hello")]),
                ("finish_reason", JVal.jstr "stop")],
              JVal.jobj [("index", JVal.jnum 1),
                ("message", JVal.jobj [("content", JVal.jstr "bye")])]],
        WfChoice c)) ∧
    SseConversionSpec
      (fun _ => Except.ok (JVal.jobj
        [("id", JVal.jstr "chat1"), ("created", JVal.jnum 123),
         ("model", JVal.jstr "o1-preview"),
         ("choices", JVal.jarr
           [JVal.jobj [("index", JVal.jnum 0),
              ("message", JVal.jobj [("role", JVal.jstr "assistant"),
                ("content", JVal.jstr "hello")]),
              ("finish_reason", JVal.jstr "stop")],
            JVal.jobj [("index", JVal.jnum 1),
              ("message", JVal.jobj [("content", JVal.jstr "bye")])]])]))
      "o1-preview" "raw"
      [("id", JVal.jstr "chat1"), ("created", JVal.jnum 123),
       ("model", JVal.jstr "o1-preview"),
       ("choices", JVal.jarr
         [JVal.jobj [("index", JVal.jnum 0),
            ("message", JVal.jobj [("role", JVal.jstr "assistant"),
              ("content", JVal.jstr "hello")]),
            ("finish_reason", JVal.jstr "stop")],
          JVal.jobj [("index", JVal.jnum 1),
            ("message", JVal.jobj [("content", JVal.jstr "bye")])]])]
      [JVal.jobj [("index", JVal.jnum 0),
         ("message", JVal.jobj [("role", JVal.jstr "assistant"),
           ("content", JVal.jstr "hello")]),
         ("finish_reason", JVal.jstr "stop")],
       JVal.jobj [("index", JVal.jnum 1),
         ("message", JVal.jobj [("content", JVal.jstr "bye")])]] :=
  ⟨⟨by decide, by
      intro c hc
      simp only [List.mem_cons, List.not_mem_nil, or_false] at hc
      rcases hc with hc | hc
      · subst hc
        exact ⟨JVal.jnum 0,
          [("role", JVal.jstr "assistant"), ("content", JVal.jstr "hello")],
          JVal.jstr "hello", rfl, rfl, rfl⟩
      · subst hc
        exact ⟨JVal.jnum 1, [("content", JVal.jstr "bye")],
          JVal.jstr "bye", rfl, rfl, rfl⟩⟩,
   c5_o1_sse_conversion _ "o1-preview" "raw" _ _ (by decide) rfl rfl
     (by
      intro c hc
      simp only [List.mem_cons, List.not_mem_nil, or_false] at hc
      rcases hc with hc | hc
      · subst hc
        exact ⟨JVal.jnum 0,
          [("role", JVal.jstr "assistant"), ("content", JVal.jstr "hello")],
          JVal.jstr "hello", rfl, rfl, rfl⟩
      · subst hc
        exact ⟨JVal.jnum 1, [("content", JVal.jstr "bye")],
          JVal.jstr "bye", rfl, rfl, rfl⟩)⟩

/-- Shifting a sum inside `% n`. -/
theorem add_mod_left_mod (a b n : Nat) : (a % n + b) % n = (a + b) % n := by
  conv_lhs => rw [Nat.add_mod]
  rw [Nat.mod_mod_of_dvd a dvd_rfl, ← Nat.add_mod]

/-- If the first usable position, in circular order from `cur`, is at
offset `d` within the scan budget, the scan stops exactly there. -/
theorem scanLoop_finds (now n : Nat) (st : List TokenStatus) :
    ∀ fuel cur d, 0 < n → cur < n → d < fuel →
      (st.getD ((cur + d) % n) TokenStatus.init).rate_limited_until ≤ now →
      (∀ e, e < d →
        ¬ (st.getD ((cur + e) % n) TokenStatus.init).rate_limited_until ≤ now) →
      scanLoop now n st fuel cur = Sum.inl ((cur + d) % n) := by
  intro fuel
  induction fuel with
  | zero => intro cur d _ _ hd _ _; omega
  | succ k ih =>
    intro cur d hn hcur hd husable hmin
    unfold scanLoop
    cases d with
    | zero =>
      rw [Nat.add_zero, Nat.mod_eq_of_lt hcur] at husable
      rw [if_pos husable, Nat.add_zero, Nat.mod_eq_of_lt hcur]
    | succ d' =>
      have hnot : ¬ (st.getD cur TokenStatus.init).rate_limited_until ≤ now := by
        have h0 := hmin 0 (Nat.succ_pos d')
        rwa [Nat.add_zero, Nat.mod_eq_of_lt hcur] at h0
      rw [if_neg hnot]
      have heq : ∀ e : Nat, ((cur + 1) % n + e) % n = (cur + 1 + e) % n :=
        fun e => add_mod_left_mod (cur + 1) e n
      have hres := ih ((cur + 1) % n) d' hn (Nat.mod_lt _ hn) (by omega)
        (by rw [heq d', show cur + 1 + d' = cur + (d' + 1) from by omega]
            exact husable)
        (by intro e he
            rw [heq e, show cur + 1 + e = cur + (e + 1) from by omega]
            exact hmin (e + 1) (by omega))
      rw [hres, heq d', show cur + 1 + d' = cur + (d' + 1) from by omega]

/-- When every credential is rate-limited the scan walks the whole cycle
and ends where it started (shifted by the budget, modulo the size). -/
theorem scanLoop_all_limited (now n : Nat) (st : List TokenStatus) :
    ∀ fuel cur, 0 < n → cur < n →
      (∀ i, i < n →
        ¬ (st.getD i TokenStatus.init).rate_limited_until ≤ now) →
      scanLoop now n st fuel cur = Sum.inr ((cur + fuel) % n) := by
  intro fuel
  induction fuel with
  | zero =>
    intro cur hn hcur _
    unfold scanLoop
    rw [Nat.add_zero, Nat.mod_eq_of_lt hcur]
  | succ k ih =>
    intro cur hn hcur hall
    unfold scanLoop
    rw [if_neg (hall cur hcur)]
    rw [ih ((cur + 1) % n) hn (Nat.mod_lt _ hn) hall]
    rw [add_mod_left_mod, show cur + 1 + k = cur + (k + 1) from by omega]

/-- Every residue is reachable as an offset within one cycle. -/
theorem exists_offset (c i n : Nat) (hc : c < n) (hi : i < n) :
    ∃ d, d < n ∧ (c + d) % n = i := by
  by_cases h : c ≤ i
  · exact ⟨i - c, by omega,
      by rw [show c + (i - c) = i from by omega, Nat.mod_eq_of_lt hi]⟩
  · refine ⟨i + n - c, by omega, ?_⟩
    rw [show c + (i + n - c) = i + n from by omega, Nat.add_mod_right,
      Nat.mod_eq_of_lt hi]

/-- Unfolding `argminRLU` on a list with at least two entries. -/
theorem argminRLU_cons2 (st r : TokenStatus) (rs : List TokenStatus) :
    argminRLU (st :: r :: rs) =
      if st.rate_limited_until ≤
          ((r :: rs).getD (argminRLU (r :: rs)) TokenStatus.init).rate_limited_until
      then 0 else argminRLU (r :: rs) + 1 := rfl

/-- Lemma: `argminRLU` returns a position of the list. -/
theorem argminRLU_lt (l : List TokenStatus) (h : l ≠ []) :
    argminRLU l < l.length := by
  induction l with
  | nil => exact absurd rfl h
  | cons st rest ih =>
    cases rest with
    | nil => simp [argminRLU]
    | cons r rs =>
      have hlt := ih (by simp)
      rw [argminRLU_cons2]
      split
      · simp
      · simp only [List.length_cons] at *
        omega

/-- Lemma: `argminRLU` minimizes `rate_limited_until` over the list. -/
theorem argminRLU_min (l : List TokenStatus) :
    ∀ i, i < l.length →
      (l.getD (argminRLU l) TokenStatus.init).rate_limited_until ≤
        (l.getD i TokenStatus.init).rate_limited_until := by
  induction l with
  | nil => intro i hi; simp at hi
  | cons st rest ih =>
    intro i hi
    cases rest with
    | nil =>
      have h0 : i = 0 := by simp at hi; omega
      subst h0
      simp [argminRLU]
    | cons r rs =>
      rw [argminRLU_cons2]
      split
      · next hcond =>
        cases i with
        | zero => simp
        | succ i' =>
          rw [List.getD_cons_zero, List.getD_cons_succ]
          exact le_trans hcond (ih i' (by simpa using Nat.lt_of_succ_lt_succ hi))
      · next hcond =>
        cases i with
        | zero =>
          rw [List.getD_cons_succ, List.getD_cons_zero]
          omega
        | succ i' =>
          rw [List.getD_cons_succ, List.getD_cons_succ]
          exact ih i' (by simpa using Nat.lt_of_succ_lt_succ hi)

/-- C7 — `get_next_available_token` scans from `currentIndex`, wrapping
circularly for at most one full cycle; a credential is usable iff its
`rate_limited_until ≤ now`; a found credential with a previously nonzero
window has window and failure count reset to 0; when no credential is
usable the call still returns a credential — one with minimal
`rate_limited_until` — leaving every status unchanged. -/
theorem c7_get_next_available_token (s : TMState) (now : Nat)
    (hn : 0 < s.tokens.length) (hlen : s.statuses.length = s.tokens.length)
    (hidx : s.current_index < s.tokens.length) :
    SelectSpec s now := by
  by_cases hex : ∃ i, i < s.tokens.length ∧
      (s.statuses.getD i TokenStatus.init).rate_limited_until ≤ now
  · obtain ⟨i, hi, hui⟩ := hex
    obtain ⟨dw, hdw, hdwi⟩ := exists_offset s.current_index i s.tokens.length hidx hi
    have hP : ∃ d, (s.statuses.getD ((s.current_index + d) % s.tokens.length)
        TokenStatus.init).rate_limited_until ≤ now :=
      ⟨dw, by rw [hdwi]; exact hui⟩
    have hud0 := Nat.find_spec hP
    have hmin : ∀ e, e < Nat.find hP →
        ¬ (s.statuses.getD ((s.current_index + e) % s.tokens.length)
            TokenStatus.init).rate_limited_until ≤ now :=
      fun e he => Nat.find_min hP he
    have hd0n : Nat.find hP < s.tokens.length :=
      lt_of_le_of_lt (Nat.find_min' hP (by rw [hdwi]; exact hui)) hdw
    have hscan := scanLoop_finds now s.tokens.length s.statuses s.tokens.length
      s.current_index (Nat.find hP) hn hidx hd0n hud0 hmin
    have hjlt : (s.current_index + Nat.find hP) % s.tokens.length <
        s.tokens.length := Nat.mod_lt _ hn
    have hjlt' : (s.current_index + Nat.find hP) % s.tokens.length <
        s.statuses.length := by rw [hlen]; exact hjlt
    have hg : get_next_available_token s now =
        ((s.tokens.getD ((s.current_index + Nat.find hP) % s.tokens.length) "",
          (s.current_index + Nat.find hP) % s.tokens.length),
         { s with
           statuses := s.statuses.set
             ((s.current_index + Nat.find hP) % s.tokens.length)
             (if 0 < (s.statuses.getD
                  ((s.current_index + Nat.find hP) % s.tokens.length)
                  TokenStatus.init).rate_limited_until then
                { s.statuses.getD ((s.current_index + Nat.find hP) % s.tokens.length)
                    TokenStatus.init with
                  rate_limited_until := 0, consecutive_failures := 0 }
              else s.statuses.getD
                ((s.current_index + Nat.find hP) % s.tokens.length)
                TokenStatus.init)
           current_index := (s.current_index + Nat.find hP) % s.tokens.length }) := by
      simp only [get_next_available_token, hscan]
    refine ⟨?_, ?_, ?_, ?_, ?_, ?_⟩
    · simp only [hg]; exact hjlt
    · simp only [hg]
    · simp only [hg]
    · simp only [hg]
    · intro _
      refine ⟨?_, ⟨Nat.find hP, hd0n, by simp only [hg], hmin⟩,
        by simp only [hg], ?_, ?_, ?_⟩
      · simp only [hg]; exact hud0
      · simp only [hg]
        rw [List.getD_eq_getElem?_getD, List.getElem?_set_self hjlt']
        simp only [Option.getD_some]
        split
        · rfl
        · next hpos => omega
      · simp only [hg]
        rw [List.getD_eq_getElem?_getD, List.getElem?_set_self hjlt']
        simp only [Option.getD_some]
        split <;> rfl
      · intro j' hj'
        simp only [hg] at hj' ⊢
        rw [List.getD_eq_getElem?_getD, List.getElem?_set_ne (Ne.symm hj'),
          ← List.getD_eq_getElem?_getD]
    · intro hall
      exact absurd hui (hall i hi)
  · have hall : ∀ i, i < s.tokens.length →
        ¬ (s.statuses.getD i TokenStatus.init).rate_limited_until ≤ now := by
      intro i hi hcon
      exact hex ⟨i, hi, hcon⟩
    have hscan := scanLoop_all_limited now s.tokens.length s.statuses
      s.tokens.length s.current_index hn hidx hall
    have hcur : (s.current_index + s.tokens.length) % s.tokens.length =
        s.current_index := by
      rw [Nat.add_mod_right, Nat.mod_eq_of_lt hidx]
    have hg : get_next_available_token s now =
        ((s.tokens.getD (argminRLU s.statuses) "", argminRLU s.statuses),
         { s with current_index :=
             (s.current_index + s.tokens.length) % s.tokens.length }) := by
      simp only [get_next_available_token, hscan]
    have hne : s.statuses ≠ [] := by
      intro h0
      rw [h0] at hlen
      simp at hlen
      omega
    refine ⟨?_, ?_, ?_, ?_, ?_, ?_⟩
    · rw [hg]
      have := argminRLU_lt s.statuses hne
      rw [hlen] at this
      exact this
    · rw [hg]
    · rw [hg]
    · rw [hg]
    · intro hexx
      exact absurd hexx hex
    · intro _
      refine ⟨by rw [hg], by rw [hg]; exact hcur, ?_⟩
      intro i hi
      rw [hg]
      exact argminRLU_min s.statuses i (by rw [hlen]; exact hi)

/-- C7 witness. -/
theorem c7_get_next_available_token_witness :
    (0 < (["token1", "token2", "token3"] : List String).length ∧
      ([{ last_error := some "Rate limit exceeded", rate_limited_until := 1500,
          consecutive_failures := 1 },
        TokenStatus.init, TokenStatus.init] : List TokenStatus).length =
        (["token1", "token2", "token3"] : List String).length ∧
      0 < (["token1", "token2", "token3"] : List String).length) ∧
    SelectSpec
      { tokens := ["token1", "token2", "token3"]
        statuses := [{ last_error := some "Rate limit exceeded",
                       rate_limited_until := 1500, consecutive_failures := 1 },
                     TokenStatus.init, TokenStatus.init]
        current_index := 0
        cached_token := none } 1000 :=
  ⟨⟨by decide, by decide, by decide⟩,
   c7_get_next_available_token
     { tokens := ["token1", "token2", "token3"]
       statuses := [{ last_error := some "Rate limit exceeded",
                      rate_limited_until := 1500, consecutive_failures := 1 },
                    TokenStatus.init, TokenStatus.init]
       current_index := 0
       cached_token := none } 1000
     (by decide) (by decide) (by decide)⟩
